import Mathlib

/-!
Verification of the SAP analytics platform's data generator
(`src/generator/sap_generator.py`) and data-quality engine
(`src/quality/core.py`) against its natural-language specification.

The Python code is shallowly embedded: dates are day numbers (`ℤ`),
quantities are integers (`ℤ` / `ℕ`), prices and random fractions are
rationals (`ℚ`), random draws are explicit parameters, and pandas
tables are Lean lists.  Field and function names follow the source.
-/

namespace SAP

/-! ## Data-quality engine: score bookkeeping (`DQCore.log`, `core.py`) -/

/-- Check status as produced by the engine: `"PASS"`, `"FAIL"`, `"WARN"`. -/
inductive Status where
  | pass
  | fail
  | warn
deriving DecidableEq, Repr

/-- Check severity: `"Critical"`, `"Warning"`, or the default `"Info"`. -/
inductive Severity where
  | critical
  | warning
  | info
deriving DecidableEq, Repr

/-- `penalty = 15 if severity == "Critical" else 5 if severity == "Warning" else 0`. -/
def penalty : Severity → ℤ
  | .critical => 15
  | .warning => 5
  | .info => 0

/-- One step of `DQCore.log`: the score update for a logged check outcome
(`core.py` lines 56-62).  Scores are Python ints, embedded as `ℤ`. -/
def logStep (score : ℤ) (st : Status) (sev : Severity) : ℤ :=
  match st with
  | .fail => max 0 (score - penalty sev)
  | .warn => max 0 (score - 2)
  | .pass => score

/-- The score after logging a sequence of check outcomes, starting from the
initial score 100 set in `DQCore.__init__`. -/
def runScore (checks : List (Status × Severity)) : ℤ :=
  checks.foldl (fun s c => logStep s c.1 c.2) 100

/-! ## Material master generation (`_generate_mara`) -/

/-- The five material category codes, in the order the generator iterates them. -/
def maraCategories : List String :=
  ["ELECT_F", "ELECT_P", "OFFICE", "RAW", "SERV"]

/-- Per-category material counts (`_generate_mara` lines 279-294):
the first four are `int(total * share)` (floors, `int()` truncates the
nonnegative products), and `SERV` is the exact remainder. -/
def materialCategoryCounts (total : ℕ) : List ℕ :=
  let cElectF := total * 20 / 100
  let cElectP := total * 15 / 100
  let cOffice := total * 30 / 100
  let cRaw := total * 25 / 100
  let cServ := total - (cElectF + cElectP + cOffice + cRaw)
  [cElectF, cElectP, cOffice, cRaw, cServ]

/-- The MATKL column of the generated MARA table: each category contributes
`count` rows (the `for category, count in counts.items()` loop extending
`matkl`); row ids `MATNR` are then regenerated from the actual total length. -/
def maraMatklColumn (total : ℕ) : List String :=
  (maraCategories.zip (materialCategoryCounts total)).flatMap
    fun ck => List.replicate ck.2 ck.1

/-! ## Line-item quantities and prices (`_generate_ekpo`) -/

/-- numpy `astype(int)`: truncation toward zero, embedded on `ℚ`. -/
def npTrunc (x : ℚ) : ℤ :=
  if 0 ≤ x then ⌊x⌋ else ⌈x⌉

/-- `MENGE`: the integer truncation of a (positive) log-normal draw
(`_generate_ekpo` lines 670-671). -/
def mengeOfDraw (x : ℚ) : ℤ :=
  npTrunc x

/-- Large-order adjustment (`_generate_ekpo` lines 673-690): only rows whose
header carries `is_large` get `MENGE := max(MENGE, qty_forced)`; all other
rows keep their drawn quantity. -/
def adjustMenge (isLarge : Bool) (menge qtyForced : ℤ) : ℤ :=
  if isLarge then max menge qtyForced else menge

/-- `qty_forced = (target_val / netpr).astype(int)` for large rows. -/
def qtyForced (targetVal netpr : ℚ) : ℤ :=
  npTrunc (targetVal / netpr)

/-- Spot price (`_generate_ekpo` lines 647-656): material base price times an
unclamped `Normal(1.0, price_volatility)` noise draw, times a preferred-vendor
discount factor when the vendor's `KTOKK == "PREF"`. -/
def spotPrice (basePrice noise : ℚ) (isPref : Bool) (prefDiscount : ℚ) : ℚ :=
  let p := basePrice * noise
  if isPref then p * prefDiscount else p

/-- `NETWR = MENGE * NETPR` (`_generate_ekpo` line 692). -/
def netValue (menge : ℤ) (netpr : ℚ) : ℚ :=
  (menge : ℚ) * netpr

/-- One EKPO row as seen by the Net Value quality check. -/
structure EkpoLine where
  menge : ℤ
  netpr : ℚ
  netwr : ℚ
deriving DecidableEq, Repr

/-- A line as the generator emits it: `NETWR` is the exact product. -/
def mkEkpoLine (menge : ℤ) (netpr : ℚ) : EkpoLine :=
  ⟨menge, netpr, netValue menge netpr⟩

/-- `THRESHOLDS["netwr_tolerance"]` from `quality/config.py`. -/
def netwrTolerance : ℚ := 1 / 100

/-- Whether one row is flagged by the Net Value check
(`run_business_logic` lines 213-216): `|NETWR - MENGE*NETPR| > NETWR * tol`. -/
def netValueRowFlagged (l : EkpoLine) : Bool :=
  decide (|l.netwr - (l.menge : ℚ) * l.netpr| > l.netwr * netwrTolerance)

/-- The Net Value check passes iff no row is flagged (`failures.empty`). -/
def netValueCheckPasses (ekpo : List EkpoLine) : Bool :=
  ekpo.all fun l => !netValueRowFlagged l

/-! ## Goods-receipt splitting (`_generate_ekbe`, lines 745-770) -/

/-- numpy `round` to 0 decimals: round half to even, embedded on `ℚ`. -/
def npRound (q : ℚ) : ℤ :=
  let fl := ⌊q⌋
  let fr := q - (fl : ℚ)
  if fr < 1 / 2 then fl
  else if 1 / 2 < fr then fl + 1
  else if fl % 2 = 0 then fl else fl + 1

/-- First receipt of a split line:
`(MENGE * ratio1).round(0)` then `np.maximum(.., 1)`. -/
def grPart1 (menge : ℤ) (r : ℚ) : ℤ :=
  max (npRound ((menge : ℚ) * r)) 1

/-- Goods-receipt quantities for a line selected for partial delivery:
the first receipt is `grPart1`, the second is the remainder, dropped when
`MENGE - part1 <= 0` (`df_part2 = df_part2[df_part2["MENGE"] > 0]`). -/
def splitReceipts (menge : ℤ) (r : ℚ) : List ℤ :=
  let part1 := grPart1 menge r
  let part2 := menge - part1
  if 0 < part2 then [part1, part2] else [part1]

/-- Goods-receipt quantities for one line: split lines (the ~20% drawn by
`split_mask`) go through `splitReceipts` with ratio draw `r ∈ [0.4, 0.6)`;
every other line yields a single receipt with the full quantity. -/
def receiptsOfLine (split : Bool) (menge : ℤ) (r : ℚ) : List ℤ :=
  if split then splitReceipts menge r else [menge]

/-! ## Vendor master and PO headers (`_generate_lfa1`, `_generate_ekko`) -/

/-- One LFA1 vendor row: `SPERR == "X"` is embedded as `blocked`, and the
creation date `ERDAT` as a day number. -/
structure Vendor where
  lifnr : String
  blocked : Bool
  erdat : ℤ
deriving DecidableEq, Repr

/-- One EKKO header before cleanup: the assigned vendor and the order date
`AEDAT` as a day number. -/
structure POHeader where
  vendor : Vendor
  aedat : ℤ
deriving DecidableEq, Repr

/-- `safe_vendors = self.lfa1[self.lfa1["SPERR"] == ""]["LIFNR"]`. -/
def safeVendors (vendors : List Vendor) : List Vendor :=
  vendors.filter fun v => !v.blocked

/-- The blocked-vendor repair of `_generate_ekko` (lines 479-516) for one
header.  `bad = (SPERR == "X") & (AEDAT >= cutoff)`; a bad header whose
vendor creation date precedes the cutoff gets its date redrawn as
`lower_bound + int(frac * max(days_range, 0))` with
`lower_bound = max(ERDAT, sim_start)` and `days_range = cutoff - lower_bound`
(the shift branch); the remaining bad headers get their vendor replaced by a
draw from the non-blocked vendors (the replace branch, applied after the
shift).  `frac` is the `np.random.random` draw and `ridx` indexes the
replacement draw. -/
def repairHeader (simStart cutoff : ℤ) (safe : List Vendor) (o : POHeader)
    (frac : ℚ) (ridx : ℕ) : POHeader :=
  if o.vendor.blocked = true ∧ cutoff ≤ o.aedat then
    if o.vendor.erdat < cutoff then
      { o with
          aedat := max o.vendor.erdat simStart +
            ⌊frac * ((max (cutoff - max o.vendor.erdat simStart) 0 : ℤ) : ℚ)⌋ }
    else
      { o with vendor := safe.getD (ridx % safe.length) o.vendor }
  else o

/-- The header table after `_generate_ekko`'s repair: every initially drawn
header is repaired against `cutoff_date = sim_end - 90 days` using the
non-blocked vendor pool. -/
def generateEkko (simStart simEnd : ℤ) (vendors : List Vendor)
    (orders : List POHeader) (fracs : ℕ → ℚ) (ridxs : ℕ → ℕ) : List POHeader :=
  (orders.enum).map fun p =>
    repairHeader simStart (simEnd - 90) (safeVendors vendors) p.2 (fracs p.1) (ridxs p.1)

/-! ## Preferred-vendor assignment (`_generate_lfa1`, lines 184-209) -/

/-- `num_top = int(n * pareto_split)` (`int()` truncates the nonnegative
product, i.e. takes the floor). -/
def numTop (n : ℕ) (split : ℚ) : ℕ :=
  (⌊(n : ℚ) * split⌋).toNat

/-- `top_weight = (share * (1 - split)) / (split * (1 - share))` when
`split > 0 and share < 1.0`, else 1. -/
def topWeight (split share : ℚ) : ℚ :=
  if 0 < split ∧ share < 1 then share * (1 - split) / (split * (1 - share)) else 1

/-- `spend_weight = np.where(np.arange(n) < num_top, top_weight, 1)`. -/
def spendWeight (n : ℕ) (split share : ℚ) (i : ℕ) : ℚ :=
  if i < numTop n split then topWeight split share else 1

/-- `num_preferred = int(n * preferred_vendor_ratio)`. -/
def numPreferred (n : ℕ) (ratio : ℚ) : ℕ :=
  (⌊(n : ℚ) * ratio⌋).toNat

/-- `num_pref_top = int(num_preferred * 0.80)`. -/
def numPrefTop (n : ℕ) (ratio : ℚ) : ℕ :=
  (⌊(numPreferred n ratio : ℚ) * (80 / 100)⌋).toNat

/-- `num_pref_bottom = num_preferred - num_pref_top`. -/
def numPrefBottom (n : ℕ) (ratio : ℚ) : ℕ :=
  numPreferred n ratio - numPrefTop n ratio

/-- `top_threshold = num_pref_top / num_top if num_top > 0 else 0`. -/
def topThreshold (n : ℕ) (split ratio : ℚ) : ℚ :=
  if 0 < numTop n split then (numPrefTop n ratio : ℚ) / (numTop n split : ℚ) else 0

/-- `bottom_threshold = num_pref_bottom / (n - num_top) if (n - num_top) > 0 else 0`. -/
def bottomThreshold (n : ℕ) (split ratio : ℚ) : ℚ :=
  if 0 < n - numTop n split then
    (numPrefBottom n ratio : ℚ) / ((n - numTop n split : ℕ) : ℚ)
  else 0

/-- The `KTOKK` value of vendor `i` given its uniform draw `p`
(`np.select` over the two conditions, lines 205-209): condition 1 is
`(probs < top_threshold) & (spend_weight == 100)`, condition 2 is
`(probs < bottom_threshold) & (spend_weight == 1)`, default `"STD"`. -/
def ktokk (n : ℕ) (split share ratio : ℚ) (i : ℕ) (p : ℚ) : String :=
  if p < topThreshold n split ratio ∧ spendWeight n split share i = 100 then "PREF"
  else if p < bottomThreshold n split ratio ∧ spendWeight n split share i = 1 then "PREF"
  else "STD"

/-! ## Contract matching for line items (`_generate_ekpo`, lines 583-636) -/

/-- One VENDOR_CONTRACTS row. -/
structure Contract where
  cid : String
  lifnr : String
  matnr : String
  price : ℚ
  validFrom : ℤ
  validTo : ℤ
deriving DecidableEq, Repr

/-- One EKPO working row before pricing: the header fields repeated onto the
line plus the material assignment columns (`MATNR`, `CONTRACT_PRICE`,
`KONNR`, all initialised to null). -/
structure ItemRow where
  lifnr : String
  bsart : String
  aedat : ℤ
  matnr : Option String
  contractPrice : Option ℚ
  konnr : Option String
deriving DecidableEq, Repr, Inhabited

/-- `pd.merge_asof(..., direction="backward")` semantics for one left row:
over the right table sorted ascending by `VALID_FROM`, the match is the last
contract of the same vendor with `VALID_FROM <= AEDAT` (i.e. the one whose
validity start is the latest at or before the order date). -/
def asofMatch (contracts : List Contract) (v : String) (d : ℤ) : Option Contract :=
  contracts.foldl
    (fun acc c => if c.lifnr = v ∧ c.validFrom ≤ d then some c else acc) none

/-- The as-of match filtered by `valid_mask = AEDAT <= VALID_TO`: only a
match whose validity end has not passed survives. -/
def validAsofMatch (contracts : List Contract) (v : String) (d : ℤ) :
    Option Contract :=
  match asofMatch contracts v d with
  | some c => if d ≤ c.validTo then some c else none
  | none => none

/-- `nb_rows = items_df[items_df["BSART"] == "NB"].sort_values("AEDAT")`,
kept with their original item-table positions. -/
def nbRowsSorted (items : List ItemRow) : List (ℕ × ItemRow) :=
  List.insertionSort (fun a b => a.2.aedat ≤ b.2.aedat)
    ((items.enum).filter fun p => p.2.bsart = "NB")

/-- The rows of `selected` after `valid_mask` (lines 624-625): the positions
of the AEDAT-sorted NB rows whose as-of match exists and is still valid,
paired with that match. -/
def selectedRows (contracts : List Contract) (items : List ItemRow) :
    List (ℕ × Contract) :=
  ((nbRowsSorted items).enum).filterMap fun jp =>
    (validAsofMatch contracts jp.2.2.lifnr jp.2.2.aedat).map fun c => (jp.1, c)

/-- Columns of the left frame `nb_rows` at the merge: the columns of
`items_df` as built in lines 567-581 (`MATNR` and `KONNR` are created and
set to null at lines 580-581, before the merge). -/
def nbRowsColumns : List String :=
  ["EBELN", "LIFNR", "BSART", "AEDAT", "is_large", "EBELP", "MATNR", "KONNR"]

/-- Columns of the right frame passed to `pd.merge_asof` (lines 608-617). -/
def contractRightColumns : List String :=
  ["LIFNR", "MATNR", "CONTRACT_PRICE", "VALID_FROM", "VALID_TO", "CONTRACT_ID"]

/-- The join keys of the merge: the on-keys `AEDAT` / `VALID_FROM` and the
by-key `LIFNR`; they are never suffixed, and the by-key appears only once. -/
def mergeAsofKeys : List String :=
  ["AEDAT", "VALID_FROM", "LIFNR"]

/-- Column naming of `pd.merge_asof` with its default `suffixes=("_x","_y")`:
a non-key column present in both frames is renamed `c_x` on the left and
`c_y` on the right; key columns keep their names, and a by-key shared by
both frames is emitted once (from the left). -/
def mergeAsofColumns (left right joinKeys : List String) : List String :=
  (left.map fun c => if c ∈ right ∧ c ∉ joinKeys then c ++ "_x" else c) ++
    ((right.filter fun c => decide (c ∉ left ∨ c ∉ joinKeys)).map
      fun c => if c ∈ left ∧ c ∉ joinKeys then c ++ "_y" else c)

/-- The columns of `selected`, the result of the merge at lines 606-622:
both frames carry a `MATNR` column, so it is suffixed to `MATNR_x` /
`MATNR_y` and no column named `MATNR` survives. -/
def selectedColumns : List String :=
  mergeAsofColumns nbRowsColumns contractRightColumns mergeAsofKeys

/-- The material/contract assignment of `_generate_ekpo` as executed:
spot (`"FO"`) rows draw a material; the as-of merge against the contracts is
computed and filtered by `valid_mask`; the write-back at lines 628-631 is
guarded by `if len(selected) > 0 and "MATNR" in selected.columns:` — but the
merge suffixed the colliding `MATNR` columns, so `"MATNR" ∉ selectedColumns`,
the guard is false, and the block (modeled here as the positional write its
`.loc[selected.index, ...]` statements specify; executing it would in fact
raise on `selected["MATNR"]`) never runs; finally rows whose material is
still null — every NB row — draw a uniform material, priced at spot since
no `CONTRACT_PRICE` column was ever created. -/
def ekpoAssignMaterials (contracts : List Contract) (items : List ItemRow)
    (spotDraw fallbackDraw : ℕ → String) : List ItemRow :=
  let nbSorted := nbRowsSorted items
  let selected := selectedRows contracts items
  let step1 := (items.enum).map fun p =>
    if p.2.bsart = "FO" then { p.2 with matnr := some (spotDraw p.1) } else p.2
  let step2 :=
    if 0 < selected.length ∧ "MATNR" ∈ selectedColumns then
      (step1.enum).map fun p =>
        match nbSorted.get? p.1 with
        | some pr =>
            match validAsofMatch contracts pr.2.lifnr pr.2.aedat with
            | some c =>
                { p.2 with
                    matnr := some c.matnr
                    contractPrice := some c.price
                    konnr := some c.cid }
            | none => p.2
        | none => p.2
    else step1
  (step2.enum).map fun p =>
    if p.2.matnr = none then { p.2 with matnr := some (fallbackDraw p.1) } else p.2

/-- Concrete contract for the C2 failing input: vendor V2's contract on
material MC, valid over days [0, 100]. -/
def c2Contract : Contract :=
  ⟨"C000000001", "V2", "MC", 5, 0, 100⟩

/-- Concrete item table for the C2 failing input: a spot (`FO`) line of
vendor V1 at position 0 and a contract (`NB`) line of vendor V2 at
position 1, both dated day 10. -/
def c2Items : List ItemRow :=
  [⟨"V1", "FO", 10, none, none, none⟩, ⟨"V2", "NB", 10, none, none, none⟩]

/-! ## Quality-engine run gate (`DQCore.load_data` / `DQCore.run`) -/

/-- `REQUIRED_TABLES` from `quality/config.py`. -/
def REQUIRED_TABLES : List String :=
  ["LFA1", "MARA", "EKKO", "EKPO", "EKBE", "VENDOR_CONTRACTS"]

/-- The table-reading loop of `load_data`: reads each listed table from the
data directory `env`; a missing table raises, and the surrounding
`try/except` turns that into `none` (`return False`).  `α` stands for a
loaded table. -/
def loadTables {α : Type} (env : String → Option α) : List String → Option (List α)
  | [] => some []
  | t :: ts =>
      match env t with
      | some d => (loadTables env ts).map fun l => d :: l
      | none => none

/-- `load_data`: reads every table of `REQUIRED_TABLES`. -/
def loadData {α : Type} (env : String → Option α) : Option (List α) :=
  loadTables env REQUIRED_TABLES

/-- The four check stages `run` executes after a successful load. -/
def allStages : List String :=
  ["schema", "integrity", "business_logic", "stats"]

/-- Observable outcome of `DQCore.run`: its return value, the check stages
that executed, and whether a report was generated. -/
structure RunTrace where
  ok : Bool
  stagesRun : List String
  reportProduced : Bool
deriving DecidableEq, Repr

/-- `run` (`core.py` lines 583-595): `if not self.load_data(): return False`
— a load failure short-circuits every check stage and the report; otherwise
all four stages run, a report is generated and `run` returns `True`. -/
def qualityRun {α : Type} (env : String → Option α) : RunTrace :=
  match loadData env with
  | none => ⟨false, [], false⟩
  | some _ => ⟨true, allStages, true⟩

/-- A data directory missing `EKPO.parquet` but containing every other table. -/
def envMissingEKPO : String → Option Unit :=
  fun t => if t = "EKPO" then none else some ()

/-- A data directory containing every required table. -/
def envAllTables : String → Option Unit :=
  fun _ => some ()

/-- Concrete vendor pool for the C1 witness: a blocked vendor created before
the simulation, a safe vendor, and a blocked vendor created after the 90-day
cutoff. -/
def c1Vendors : List Vendor :=
  [⟨"V1", true, -10⟩, ⟨"V2", false, -5⟩, ⟨"V3", true, 150⟩]

/-- Concrete initial header draw for the C1 witness (simulation days 0-200,
cutoff 110): a shiftable blocked/recent header, an impossible blocked/recent
header, and an untouched safe header. -/
def c1Orders : List POHeader :=
  [⟨⟨"V1", true, -10⟩, 150⟩, ⟨⟨"V3", true, 150⟩, 180⟩, ⟨⟨"V2", false, -5⟩, 199⟩]

end SAP

namespace SAP

/-! ## Quantity and price lemmas (C5, C9, C10) -/

theorem npTrunc_nonneg (x : ℚ) (hx : 0 ≤ x) : 0 ≤ npTrunc x := by
  rw [npTrunc, if_pos hx]
  exact Int.floor_nonneg.mpr hx

/-- C9: MENGE is a non-negative integer but not guaranteed to be at least 1:
it is the integer truncation of a positive log-normal draw, so it is 0 exactly
when the draw is below 1 (and then the line's net value is 0); the large-order
adjustment only ever raises quantities on lines flagged large (a `max` with
the forced quantity) and leaves every other line's quantity unchanged. -/
theorem menge_nonneg_zero_possible (x : ℚ) (hx : 0 < x) :
    0 ≤ mengeOfDraw x ∧
    (mengeOfDraw x = 0 ↔ x < 1) ∧
    (∀ netpr : ℚ, mengeOfDraw x = 0 → netValue (mengeOfDraw x) netpr = 0) ∧
    (∀ m f : ℤ, m ≤ adjustMenge true m f) ∧
    (∀ m f : ℤ, adjustMenge false m f = m) := by
  have hnn : (0 : ℚ) ≤ x := le_of_lt hx
  have hfl : mengeOfDraw x = ⌊x⌋ := by
    rw [mengeOfDraw, npTrunc, if_pos hnn]
  refine ⟨npTrunc_nonneg x hnn, ?_, ?_, ?_, ?_⟩
  · rw [hfl]
    constructor
    · intro h
      have := Int.lt_floor_add_one x
      rw [h] at this
      simpa using this
    · intro h
      have h0 : 0 ≤ ⌊x⌋ := Int.floor_nonneg.mpr hnn
      have h1 : ⌊x⌋ < 1 := Int.floor_lt.mpr (by exact_mod_cast h)
      omega
  · intro netpr h
    rw [h, netValue]
    simp
  · intro m f; simp [adjustMenge]
  · intro m f; simp [adjustMenge]

/-- Witness for C9 at the concrete draw `x = 1/2`. -/
theorem menge_nonneg_zero_possible_witness :
    0 ≤ mengeOfDraw (1 / 2) ∧
    (mengeOfDraw (1 / 2) = 0 ↔ (1 : ℚ) / 2 < 1) ∧
    (∀ netpr : ℚ, mengeOfDraw (1 / 2) = 0 → netValue (mengeOfDraw (1 / 2)) netpr = 0) ∧
    (∀ m f : ℤ, m ≤ adjustMenge true m f) ∧
    (∀ m f : ℤ, adjustMenge false m f = m) :=
  menge_nonneg_zero_possible (1 / 2) (by norm_num)

/-- C10: The spot unit price is not guaranteed strictly positive: it is the
(positive) material base price times an unclamped Normal noise draw, possibly
times a (positive) preferred-vendor discount factor, so any noise draw at or
below 0 yields a unit price at or below 0 and hence (for the non-negative
generated quantities) a net value at or below 0. -/
theorem spot_price_nonpositive_possible (basePrice noise prefDiscount : ℚ)
    (isPref : Bool) (m : ℤ)
    (hbase : 0 < basePrice) (hnoise : noise ≤ 0) (hdisc : 0 < prefDiscount)
    (hm : 0 ≤ m) :
    spotPrice basePrice noise isPref prefDiscount ≤ 0 ∧
    netValue m (spotPrice basePrice noise isPref prefDiscount) ≤ 0 := by
  have hp : basePrice * noise ≤ 0 := by nlinarith
  have hs : spotPrice basePrice noise isPref prefDiscount ≤ 0 := by
    cases isPref with
    | false =>
        have he : spotPrice basePrice noise false prefDiscount = basePrice * noise := by
          simp [spotPrice]
        rw [he]; exact hp
    | true =>
        have he : spotPrice basePrice noise true prefDiscount =
            basePrice * noise * prefDiscount := by
          simp [spotPrice]
        rw [he]; nlinarith
  refine ⟨hs, ?_⟩
  rw [netValue]
  have hmq : (0 : ℚ) ≤ (m : ℚ) := by exact_mod_cast hm
  nlinarith

/-- Witness for C10: base price 1, noise draw -1, preferred vendor with
discount factor 0.85, quantity 2. -/
theorem spot_price_nonpositive_possible_witness :
    spotPrice 1 (-1) true (85 / 100) ≤ 0 ∧
    netValue 2 (spotPrice 1 (-1) true (85 / 100)) ≤ 0 :=
  spot_price_nonpositive_possible 1 (-1) (85 / 100) true 2
    (by norm_num) (by norm_num) (by norm_num) (by norm_num)

/-- C5 counterexample: a line the generator can emit (base price 1, noise draw
-1, quantity 1) has `NETWR` equal to `MENGE * NETPR` exactly, yet the quality
engine's Net Value check fails on it: with a negative `NETWR` the tolerance
`NETWR * 0.01` is negative, so the zero difference is still flagged.  This
refutes the claim that the check passes on all data whose net value is the
exact product. -/
theorem netwr_check_negative_counterexample :
    (mkEkpoLine 1 (spotPrice 1 (-1) false 1)).netwr =
      ((mkEkpoLine 1 (spotPrice 1 (-1) false 1)).menge : ℚ) *
        (mkEkpoLine 1 (spotPrice 1 (-1) false 1)).netpr ∧
    netValueCheckPasses [mkEkpoLine 1 (spotPrice 1 (-1) false 1)] = false := by
  constructor
  · rfl
  · simp only [netValueCheckPasses, List.all_cons, List.all_nil, Bool.and_true,
      netValueRowFlagged, mkEkpoLine, netValue, spotPrice, netwrTolerance]
    norm_num

/-- C5 (amended): for every line the generator emits, `NETWR` equals
`MENGE * NETPR` exactly (so in particular quantity 10 at price 100 gives net
value 1000 and quantity 0 gives net value 0), hence trivially within the 1%
relative tolerance; and the quality engine's Net Value check passes on such
data provided every line's net value is non-negative. -/
theorem netwr_exact_and_check_nonneg (ekpo : List EkpoLine)
    (hgen : ∀ l ∈ ekpo, l.netwr = (l.menge : ℚ) * l.netpr)
    (hnn : ∀ l ∈ ekpo, 0 ≤ l.netwr) :
    (∀ l ∈ ekpo, |l.netwr - (l.menge : ℚ) * l.netpr| ≤ |l.netwr| * netwrTolerance) ∧
    (∀ menge : ℤ, ∀ netpr : ℚ, (mkEkpoLine menge netpr).netwr = (menge : ℚ) * netpr) ∧
    (mkEkpoLine 10 100).netwr = 1000 ∧
    (∀ netpr : ℚ, (mkEkpoLine 0 netpr).netwr = 0) ∧
    netValueCheckPasses ekpo = true := by
  refine ⟨?_, ?_, ?_, ?_, ?_⟩
  · intro l hl
    rw [hgen l hl]
    simp only [sub_self, abs_zero]
    exact mul_nonneg (abs_nonneg _) (by norm_num [netwrTolerance])
  · intro menge netpr; rfl
  · norm_num [mkEkpoLine, netValue]
  · intro netpr; simp [mkEkpoLine, netValue]
  · rw [netValueCheckPasses, List.all_eq_true]
    intro l hl
    have h0 : l.netwr - (l.menge : ℚ) * l.netpr = 0 := by
      rw [hgen l hl]; ring
    simp only [netValueRowFlagged, Bool.not_eq_eq_eq_not, Bool.not_true,
      decide_eq_false_iff_not, not_lt, h0, abs_zero]
    exact mul_nonneg (hnn l hl) (by norm_num [netwrTolerance])

/-- Witness for C5 (amended) on a concrete two-line table. -/
theorem netwr_exact_and_check_nonneg_witness :
    (∀ l ∈ [mkEkpoLine 10 100, mkEkpoLine 0 5],
        |l.netwr - (l.menge : ℚ) * l.netpr| ≤ |l.netwr| * netwrTolerance) ∧
    (∀ menge : ℤ, ∀ netpr : ℚ, (mkEkpoLine menge netpr).netwr = (menge : ℚ) * netpr) ∧
    (mkEkpoLine 10 100).netwr = 1000 ∧
    (∀ netpr : ℚ, (mkEkpoLine 0 netpr).netwr = 0) ∧
    netValueCheckPasses [mkEkpoLine 10 100, mkEkpoLine 0 5] = true :=
  netwr_exact_and_check_nonneg [mkEkpoLine 10 100, mkEkpoLine 0 5]
    (by intro l hl; fin_cases hl <;> rfl)
    (by intro l hl; fin_cases hl <;> norm_num [mkEkpoLine, netValue])

/-! ## Helper lemmas for the score engine -/

theorem logStep_le (s : ℤ) (hs : 0 ≤ s) (st : Status) (sev : Severity) :
    logStep s st sev ≤ s := by
  cases st <;> cases sev <;> simp [logStep, penalty] <;> omega

theorem logStep_nonneg (s : ℤ) (hs : 0 ≤ s) (st : Status) (sev : Severity) :
    0 ≤ logStep s st sev := by
  cases st <;> cases sev <;> simp [logStep, penalty] <;> omega

theorem foldl_logStep_bounds (l : List (Status × Severity)) :
    ∀ s : ℤ, 0 ≤ s →
      0 ≤ l.foldl (fun a c => logStep a c.1 c.2) s ∧
        l.foldl (fun a c => logStep a c.1 c.2) s ≤ s := by
  induction l with
  | nil => intro s hs; simpa using hs
  | cons c t ih =>
      intro s hs
      have h1 := logStep_nonneg s hs c.1 c.2
      have h2 := logStep_le s hs c.1 c.2
      have := ih (logStep s c.1 c.2) h1
      exact ⟨this.1, le_trans this.2 h2⟩

/-- C6: The quality score starts at 100 and is monotonically non-increasing:
after logging any sequence of check outcomes the score lies in `[0, 100]`,
logging one more outcome never increases it, and each outcome decrements it
(clamped at 0) by 15 for a Critical failure, 5 for a Warning failure, and 2
for a soft WARN status. -/
theorem dq_score_bounds_and_penalties :
    ∀ checks : List (Status × Severity),
      (0 ≤ runScore checks ∧ runScore checks ≤ 100) ∧
      (∀ st sev, logStep (runScore checks) st sev ≤ runScore checks) ∧
      (∀ s : ℤ, logStep s .fail .critical = max 0 (s - 15)) ∧
      (∀ s : ℤ, logStep s .fail .warning = max 0 (s - 5)) ∧
      (∀ s : ℤ, ∀ sev, logStep s .warn sev = max 0 (s - 2)) := by
  intro checks
  have hb := foldl_logStep_bounds checks 100 (by norm_num)
  refine ⟨hb, ?_, ?_, ?_, ?_⟩
  · intro st sev; exact logStep_le _ hb.1 st sev
  · intro s; rfl
  · intro s; rfl
  · intro s sev; rfl

/-! ## Helper lemmas for the material partition -/

theorem nat_div_add_div_le (a b k : ℕ) (hk : 0 < k) : a / k + b / k ≤ (a + b) / k := by
  rw [Nat.le_div_iff_mul_le hk]
  have ha := Nat.div_mul_le_self a k
  have hb := Nat.div_mul_le_self b k
  calc (a / k + b / k) * k = a / k * k + b / k * k := by ring
    _ ≤ a + b := by omega

theorem materialCategoryCounts_le (total : ℕ) :
    total * 20 / 100 + total * 15 / 100 + total * 30 / 100 + total * 25 / 100 ≤ total := by
  omega

/-- C8: For every configured total material count N, the five category counts
are the floors of 20%, 15%, 30%, 25% of N for the first four categories, the
SERV category receives exactly the remainder, the counts always sum to exactly
N, and the generated material table has exactly N rows. -/
theorem mara_category_partition_exact :
    ∀ total : ℕ,
      (materialCategoryCounts total).sum = total ∧
      materialCategoryCounts total =
        [total * 20 / 100, total * 15 / 100, total * 30 / 100, total * 25 / 100,
          total - (total * 20 / 100 + total * 15 / 100 + total * 30 / 100 +
            total * 25 / 100)] ∧
      (maraMatklColumn total).length = total := by
  intro total
  have hle := materialCategoryCounts_le total
  have hsum : (materialCategoryCounts total).sum = total := by
    simp [materialCategoryCounts]
    omega
  refine ⟨hsum, rfl, ?_⟩
  have : (maraMatklColumn total).length = (materialCategoryCounts total).sum := by
    simp [maraMatklColumn, maraCategories, materialCategoryCounts]
  rw [this, hsum]

/-! ## Helper lemmas for goods-receipt splitting -/

theorem npRound_le (q : ℚ) (z : ℤ) (h : q < (z : ℚ) + 1 / 2) : npRound q ≤ z := by
  rw [npRound]
  have hle : (⌊q⌋ : ℚ) ≤ q := Int.floor_le q
  by_cases h1 : q - (⌊q⌋ : ℚ) < 1 / 2
  · rw [if_pos h1]
    have hq : (⌊q⌋ : ℚ) < (z : ℚ) + 1 := by linarith
    have : ⌊q⌋ < z + 1 := by exact_mod_cast hq
    omega
  · rw [if_neg h1]
    have h2 : (⌊q⌋ : ℚ) + 1 / 2 ≤ q := by linarith
    have hq : (⌊q⌋ : ℚ) < (z : ℚ) := by linarith
    have hz : ⌊q⌋ < z := by exact_mod_cast hq
    by_cases h3 : 1 / 2 < q - (⌊q⌋ : ℚ)
    · rw [if_pos h3]; omega
    · rw [if_neg h3]
      by_cases h4 : ⌊q⌋ % 2 = 0
      · rw [if_pos h4]; omega
      · rw [if_neg h4]; omega

theorem grPart1_bounds (menge : ℤ) (r : ℚ) (hm : 2 ≤ menge) (hr2 : r < 3 / 5) :
    1 ≤ grPart1 menge r ∧ grPart1 menge r ≤ menge - 1 := by
  have hm0 : (0 : ℚ) < (menge : ℚ) := by exact_mod_cast (by omega : (0 : ℤ) < menge)
  have hm2 : (2 : ℚ) ≤ (menge : ℚ) := by exact_mod_cast hm
  have h1 : (menge : ℚ) * r < (menge : ℚ) * (3 / 5) := by
    exact mul_lt_mul_of_pos_left hr2 hm0
  have h2 : (menge : ℚ) * r < ((menge - 1 : ℤ) : ℚ) + 1 / 2 := by
    push_cast
    nlinarith
  have h3 := npRound_le _ _ h2
  constructor
  · exact le_max_right _ _
  · exact max_le h3 (by omega)

theorem splitReceipts_two (menge : ℤ) (r : ℚ) (hm : 2 ≤ menge) (hr2 : r < 3 / 5) :
    splitReceipts menge r = [grPart1 menge r, menge - grPart1 menge r] ∧
      1 ≤ grPart1 menge r ∧ 1 ≤ menge - grPart1 menge r := by
  obtain ⟨hb1, hb2⟩ := grPart1_bounds menge r hm hr2
  have hpos : 0 < menge - grPart1 menge r := by omega
  refine ⟨?_, hb1, by omega⟩
  rw [splitReceipts]
  simp only [if_pos hpos]

theorem splitReceipts_one (r : ℚ) (hr2 : r < 3 / 5) : splitReceipts 1 r = [1] := by
  have h2 : (1 : ℤ) * r < ((1 : ℤ) : ℚ) + 1 / 2 := by push_cast; linarith
  have h3 : npRound ((1 : ℚ) * r) ≤ 1 := by
    have := npRound_le ((1 : ℤ) * r) 1 h2
    simpa using this
  have hp1 : grPart1 1 r = 1 := by
    rw [grPart1]
    simp only [Int.cast_one]
    omega
  rw [splitReceipts, hp1]
  norm_num

/-- C4 counterexample: a line with quantity 0 selected for partial delivery
(reachable: `mengeOfDraw` emits quantity 0 for draws below 1, and the split
mask is an independent 20% draw) yields a single goods receipt of quantity 1
— the floor-at-1 fires and the negative remainder is dropped — so the receipt
quantities sum to 1, not to the original line quantity 0.  This refutes the
claim that split lines' receipt quantities always sum to the original
quantity. -/
theorem ekbe_zero_qty_split_counterexample :
    receiptsOfLine true 0 (1 / 2) = [1] ∧
      (receiptsOfLine true 0 (1 / 2)).sum ≠ (0 : ℤ) := by
  have h : receiptsOfLine true 0 (1 / 2) = [1] := by
    rw [receiptsOfLine, if_pos rfl, splitReceipts]
    have : grPart1 0 (1 / 2) = 1 := by
      rw [grPart1, npRound]
      norm_num
    rw [this]
    norm_num
  exact ⟨h, by rw [h]; decide⟩

/-- C4 (amended): for every line with quantity at least 1, the goods-receipt
quantities sum to the original line quantity: a non-split line yields exactly
one receipt with the full quantity; a split line with quantity ≥ 2 yields two
receipts — `max(round(MENGE*ratio), 1)` and the positive remainder; a split
line with quantity 1 yields a single receipt of quantity 1 (the remainder 0
is dropped).  A split line with quantity 0 instead yields a single receipt of
quantity 1, so the sum property holds only from quantity 1 upward. -/
theorem ekbe_receipt_split_sum (menge : ℤ) (r : ℚ) (split : Bool)
    (hm : 1 ≤ menge) (hr2 : r < 3 / 5) :
    (receiptsOfLine split menge r).sum = menge ∧
    (∀ q ∈ receiptsOfLine split menge r, 1 ≤ q) ∧
    receiptsOfLine false menge r = [menge] ∧
    (split = true → 2 ≤ menge →
      receiptsOfLine split menge r =
        [grPart1 menge r, menge - grPart1 menge r]) ∧
    (split = true → menge = 1 → receiptsOfLine split menge r = [1]) := by
  cases split with
  | false =>
      refine ⟨by simp [receiptsOfLine], ?_, rfl, ?_, ?_⟩
      · intro q hq
        have hr : receiptsOfLine false menge r = [menge] := rfl
        rw [hr, List.mem_singleton] at hq
        omega
      · intro h; simp at h
      · intro h; simp at h
  | true =>
      have hrw : receiptsOfLine true menge r = splitReceipts menge r := by
        rw [receiptsOfLine, if_pos rfl]
      rcases lt_or_le menge 2 with h2 | h2
      · have hm1 : menge = 1 := by omega
        subst hm1
        rw [hrw, splitReceipts_one r hr2]
        refine ⟨by decide, ?_, rfl, ?_, fun _ _ => rfl⟩
        · intro q hq; simp at hq; omega
        · intro _ h; omega
      · obtain ⟨heq, hb1, hb2⟩ := splitReceipts_two menge r h2 hr2
        rw [hrw, heq]
        refine ⟨by simp, ?_, rfl, fun _ _ => rfl, ?_⟩
        · intro q hq
          simp only [List.mem_cons, List.mem_singleton, List.not_mem_nil,
            or_false] at hq
          rcases hq with h | h <;> omega
        · intro _ h; omega

/-! ## Helper lemmas for the blocked-vendor repair -/

theorem safeVendors_not_blocked (vendors : List Vendor) :
    ∀ v ∈ safeVendors vendors, v.blocked = false := by
  intro v hv
  have := List.of_mem_filter hv
  simpa using this

theorem getD_mod_mem {α : Type} (l : List α) (h : l ≠ []) (i : ℕ) (d : α) :
    l.getD (i % l.length) d ∈ l := by
  have hlen : 0 < l.length := List.length_pos.mpr h
  have hlt : i % l.length < l.length := Nat.mod_lt _ hlen
  rw [List.getD_eq_getElem l d hlt]
  exact List.getElem_mem hlt

theorem repairHeader_no_blocked_recent (simStart cutoff : ℤ) (safe : List Vendor)
    (o : POHeader) (frac : ℚ) (ridx : ℕ)
    (hcut : simStart < cutoff)
    (_hf0 : 0 ≤ frac) (hf1 : frac < 1)
    (hsf : ∀ v ∈ safe, v.blocked = false)
    (hne : safe ≠ []) :
    ¬((repairHeader simStart cutoff safe o frac ridx).vendor.blocked = true ∧
      cutoff ≤ (repairHeader simStart cutoff safe o frac ridx).aedat) := by
  rw [repairHeader]
  by_cases hbad : o.vendor.blocked = true ∧ cutoff ≤ o.aedat
  · rw [if_pos hbad]
    by_cases hsh : o.vendor.erdat < cutoff
    · rw [if_pos hsh]
      rintro ⟨-, hge⟩
      have hge' : cutoff ≤ max o.vendor.erdat simStart +
          ⌊frac * ((max (cutoff - max o.vendor.erdat simStart) 0 : ℤ) : ℚ)⌋ := hge
      have hlb : max o.vendor.erdat simStart < cutoff := max_lt hsh hcut
      have hrng : max (cutoff - max o.vendor.erdat simStart) 0 =
          cutoff - max o.vendor.erdat simStart := by omega
      rw [hrng] at hge'
      have hR1 : (1 : ℤ) ≤ cutoff - max o.vendor.erdat simStart := by omega
      have hRq : (1 : ℚ) ≤ ((cutoff - max o.vendor.erdat simStart : ℤ) : ℚ) := by
        exact_mod_cast hR1
      have hflt : frac * ((cutoff - max o.vendor.erdat simStart : ℤ) : ℚ) <
          ((cutoff - max o.vendor.erdat simStart : ℤ) : ℚ) := by nlinarith
      have hfl : ⌊frac * ((cutoff - max o.vendor.erdat simStart : ℤ) : ℚ)⌋ <
          cutoff - max o.vendor.erdat simStart := Int.floor_lt.mpr hflt
      omega
    · rw [if_neg hsh]
      rintro ⟨hbl, -⟩
      have hbl' : (safe.getD (ridx % safe.length) o.vendor).blocked = true := hbl
      have hmem := getD_mod_mem safe hne ridx o.vendor
      have := hsf _ hmem
      rw [this] at hbl'
      exact Bool.false_ne_true hbl'
  · rw [if_neg hbad]
    exact hbad

/-- C1: For every purchase-order header produced by `_generate_ekko` — under
the generator's standing conditions that the simulation window is longer
than the 90-day cutoff window and at least one vendor is not blocked — no
header has both a blocked vendor and an order date in the last 90 days of
the simulation: blocked/recent headers whose vendor creation date precedes
the cutoff get their date redrawn into `[max(ERDAT, sim_start), cutoff)`,
the remaining blocked/recent headers get a uniformly-chosen non-blocked
vendor (shift applied before replace in `repairHeader`), and all other
headers are untouched, leaving zero blocked-vendor/recent-date combinations
in the output. -/
theorem ekko_blocked_vendor_repair_invariant
    (simStart simEnd : ℤ) (vendors : List Vendor) (orders : List POHeader)
    (fracs : ℕ → ℚ) (ridxs : ℕ → ℕ)
    (hwin : simStart < simEnd - 90)
    (hfrac : ∀ i, 0 ≤ fracs i ∧ fracs i < 1)
    (hsafe : safeVendors vendors ≠ []) :
    ∀ o ∈ generateEkko simStart simEnd vendors orders fracs ridxs,
      ¬(o.vendor.blocked = true ∧ simEnd - 90 ≤ o.aedat) := by
  intro o ho
  rw [generateEkko, List.mem_map] at ho
  obtain ⟨p, hp, rfl⟩ := ho
  exact repairHeader_no_blocked_recent _ _ _ _ _ _ hwin (hfrac p.1).1 (hfrac p.1).2
    (safeVendors_not_blocked vendors) hsafe

/-- Witness for C1 on the concrete three-header draw `c1Orders` (simulation
days 0-200, so the cutoff is day 110), with zero fraction draws and
replacement index 0; the first repaired header is shifted to day 0 and
satisfies the invariant. -/
theorem ekko_blocked_vendor_repair_invariant_witness :
    (⟨⟨"V1", true, -10⟩, 0⟩ : POHeader) ∈
      generateEkko 0 200 c1Vendors c1Orders (fun _ => 0) (fun _ => 0) ∧
    ¬((⟨⟨"V1", true, -10⟩, 0⟩ : POHeader).vendor.blocked = true ∧
      (200 : ℤ) - 90 ≤ (⟨⟨"V1", true, -10⟩, 0⟩ : POHeader).aedat) := by
  have hmem : (⟨⟨"V1", true, -10⟩, 0⟩ : POHeader) ∈
      generateEkko 0 200 c1Vendors c1Orders (fun _ => 0) (fun _ => 0) := by
    simp only [generateEkko, c1Vendors, c1Orders, safeVendors, repairHeader,
      List.enum, List.filter, List.map]
    norm_num
  refine ⟨hmem, ?_⟩
  exact ekko_blocked_vendor_repair_invariant 0 200 c1Vendors c1Orders
    (fun _ => 0) (fun _ => 0) (by norm_num)
    (fun i => ⟨le_refl 0, by norm_num⟩) (by decide) _ hmem

/-- Witness for C4 (amended): a split line with quantity 5 and ratio draw 1/2. -/
theorem ekbe_receipt_split_sum_witness :
    (receiptsOfLine true 5 (1 / 2)).sum = 5 ∧
    (∀ q ∈ receiptsOfLine true 5 (1 / 2), 1 ≤ q) ∧
    receiptsOfLine false 5 (1 / 2) = [5] ∧
    (true = true → 2 ≤ (5 : ℤ) →
      receiptsOfLine true 5 (1 / 2) =
        [grPart1 5 (1 / 2), 5 - grPart1 5 (1 / 2)]) ∧
    (true = true → (5 : ℤ) = 1 → receiptsOfLine true 5 (1 / 2) = [1]) :=
  ekbe_receipt_split_sum 5 (1 / 2) true (by norm_num) (by norm_num)

/-! ## Preferred-vendor assignment is broken for top-tier vendors (C3) -/

/-- C3: the claim fails on the code.  Under the default configuration
(`pareto_split = 0.20`, `pareto_spend_share = 0.80`,
`preferred_vendor_ratio = 0.10`, here with 10 vendors) the top-tier spend
weight is 16, but the first `np.select` condition tests
`spend_weight == 100`, so a top-tier vendor's `KTOKK` is `"STD"` for every
possible uniform draw — the top-tier preferred probability is 0 — while a
bottom-tier vendor is preferred with positive probability (threshold 1/8,
witnessed by the draw 1/10).  The code contradicts its own comments
(`# Top vendors`, `top 20% get weight=4000`) and `test_generator.py`, which
expects top vendors to carry weight 100. -/
theorem lfa1_preferred_top_tier_unreachable :
    topWeight (1 / 5) (4 / 5) = 16 ∧
    numTop 10 (1 / 5) = 2 ∧
    (∀ p : ℚ, ktokk 10 (1 / 5) (4 / 5) (1 / 10) 0 p = "STD") ∧
    bottomThreshold 10 (1 / 5) (1 / 10) = 1 / 8 ∧
    ktokk 10 (1 / 5) (4 / 5) (1 / 10) 5 (1 / 10) = "PREF" := by
  have htw : topWeight (1 / 5) (4 / 5) = 16 := by
    rw [topWeight, if_pos (by norm_num)]
    norm_num
  have hnt : numTop 10 (1 / 5) = 2 := by
    rw [numTop]
    norm_num
    decide
  have hnp : numPreferred 10 (1 / 10) = 1 := by
    rw [numPreferred]
    norm_num
  have hnpt : numPrefTop 10 (1 / 10) = 0 := by
    rw [numPrefTop, hnp]
    norm_num
  have hnpb : numPrefBottom 10 (1 / 10) = 1 := by
    rw [numPrefBottom, hnp, hnpt]
  have htt : topThreshold 10 (1 / 5) (1 / 10) = 0 := by
    rw [topThreshold, if_pos (by rw [hnt]; norm_num), hnpt, hnt]
    norm_num
  have hbt : bottomThreshold 10 (1 / 5) (1 / 10) = 1 / 8 := by
    rw [bottomThreshold, if_pos (by rw [hnt]; norm_num), hnpb, hnt]
    norm_num
  have hsw0 : spendWeight 10 (1 / 5) (4 / 5) 0 = 16 := by
    rw [spendWeight, if_pos (by rw [hnt]; norm_num)]
    exact htw
  have hsw5 : spendWeight 10 (1 / 5) (4 / 5) 5 = 1 := by
    rw [spendWeight, if_neg (by rw [hnt]; norm_num)]
  refine ⟨htw, hnt, ?_, hbt, ?_⟩
  · intro p
    rw [ktokk, if_neg, if_neg]
    · rw [hsw5] at *
      push_neg
      intro h
      rw [hsw0] at *
      norm_num at *
    · push_neg
      intro h
      rw [hsw0]
      norm_num
  · rw [ktokk, if_neg, if_pos]
    · exact ⟨by rw [hbt]; norm_num, hsw5⟩
    · push_neg
      intro h
      rw [htt] at h
      norm_num at h

/-! ## Quality-engine load gate (C7) -/

theorem loadTables_isSome_iff {α : Type} (env : String → Option α)
    (ts : List String) :
    (loadTables env ts).isSome ↔ ∀ t ∈ ts, (env t).isSome := by
  induction ts with
  | nil => simp [loadTables]
  | cons t ts ih =>
      cases henv : env t with
      | none => simp [loadTables, henv]
      | some d => simp [loadTables, henv, ih]

/-- C7: If any required table is missing from the data directory (for
example `EKPO`, but equally `MARA` or `VENDOR_CONTRACTS`), the quality
engine's run returns overall failure without executing any of the schema,
integrity, business-logic or statistics stages and without producing a
report (the caught load error is the only effect); when all required tables
load, all four check stages execute and a report is produced. -/
theorem quality_run_load_gate {α : Type} (env : String → Option α) :
    ((∃ t ∈ REQUIRED_TABLES, env t = none) →
      qualityRun env = ⟨false, [], false⟩) ∧
    ((∀ t ∈ REQUIRED_TABLES, (env t).isSome) →
      qualityRun env = ⟨true, allStages, true⟩) := by
  constructor
  · rintro ⟨t, ht, hmiss⟩
    rw [qualityRun]
    have hnone : loadData env = none := by
      cases hld : loadData env with
      | none => rfl
      | some l =>
          have hs : (loadTables env REQUIRED_TABLES).isSome := by
            rw [← loadData, hld]; rfl
          have := (loadTables_isSome_iff env REQUIRED_TABLES).mp hs t ht
          rw [hmiss] at this
          simp at this
    rw [hnone]
  · intro h
    rw [qualityRun]
    have hs : (loadTables env REQUIRED_TABLES).isSome :=
      (loadTables_isSome_iff env REQUIRED_TABLES).mpr h
    rw [loadData] at *
    cases hld : loadTables env REQUIRED_TABLES with
    | none => rw [hld] at hs; simp at hs
    | some l => rfl

/-- Witness for C7: a directory missing exactly `EKPO` fails the run with no
stages executed, and a directory with every table runs all four stages. -/
theorem quality_run_load_gate_witness :
    qualityRun envMissingEKPO = ⟨false, [], false⟩ ∧
    qualityRun envAllTables = ⟨true, allStages, true⟩ :=
  ⟨(quality_run_load_gate envMissingEKPO).1
      ⟨"EKPO", by decide, by simp [envMissingEKPO]⟩,
   (quality_run_load_gate envAllTables).2 (fun t _ => rfl)⟩

/-! ## Dead contract write-back in `_generate_ekpo` (C2) -/

/-- C2: the claim fails on the code.  The merge suffixes the colliding
`MATNR` columns of `nb_rows` and the contract frame to `MATNR_x` / `MATNR_y`,
so no column named `MATNR` exists in `selected` and the write-back guard
`if len(selected) > 0 and "MATNR" in selected.columns:` (line 628) is false:
contract material, price and reference are never written to any line.  In
the failing input `c2Items` (an `FO` line of vendor V1 at position 0 and an
`NB` line of vendor V2 at position 1, both dated day 10) with `c2Contract` a
contract of vendor V2 valid on day 10, the temporal as-of match for the NB
line exists and is valid and `selected` is non-empty — yet the NB line falls
back to a uniformly drawn material at spot price with no contract reference,
refuting the claim that such a line takes its material, price and reference
from the matched contract. -/
theorem ekpo_contract_write_back_dead :
    selectedColumns =
      ["EBELN", "LIFNR", "BSART", "AEDAT", "is_large", "EBELP", "MATNR_x",
        "KONNR", "MATNR_y", "CONTRACT_PRICE", "VALID_FROM", "VALID_TO",
        "CONTRACT_ID"] ∧
    "MATNR" ∉ selectedColumns ∧
    (validAsofMatch [c2Contract] "V2" 10).map (fun c => c.cid) =
      some "C000000001" ∧
    (selectedRows [c2Contract] c2Items).length = 1 ∧
    ekpoAssignMaterials [c2Contract] c2Items (fun _ => "MS") (fun _ => "MF") =
      [⟨"V1", "FO", 10, some "MS", none, none⟩,
       ⟨"V2", "NB", 10, some "MF", none, none⟩] := by
  refine ⟨?_, ?_, ?_, ?_, ?_⟩ <;> decide

end SAP
